import Mathlib

/-!
Verification of the replay timeline and state-reconstruction engine of the
blackjackweb repository.

The definitions below are a shallow embedding of the TypeScript source:

* `buildEventList`, `useReplay` state and controls (hooks/useReplay.ts):
  `buildEventList`, `ReplayCtl.next`, `ReplayCtl.prev`, `ReplayCtl.play`,
  `ReplayCtl.pause`, `ReplayCtl.jumpTo`, `ReplayCtl.jumpToEnd`,
  `ReplayCtl.setSpeed`, `ReplayCtl.atEnd`, `initialReplayCtl`.
* `agentHands` and `bankrolls` (views/GameView.tsx).
* `SPEEDS` (components/game/ReplayControls.tsx).

JavaScript numbers used as array cursors are embedded as `Int` (the code
relies on `rounds[i - 1]` being `undefined` at `i = 0`, and on
`Math.min(x, total - 1)` with a possibly negative right side); out-of-range
array reads `xs[i]` become `xs[i]?` with `Option`.
-/

/-- One recorded decision of an agent during a round (types/session). -/
structure AgentRoundStep where
  step_num : Nat
  agent_name : String
  player_hand : List String
  dealer_upcard : String
  legal_actions : List String
  action_taken : String
  reason : String
  hand_value : Nat
  is_split_hand : Bool
  hand_index : Nat
deriving Repr, DecidableEq, Inhabited

/-- Per-agent result of one round (types/session). -/
structure AgentRoundResult where
  agent_index : Nat
  agent_name : String
  player_hands : List (List String)
  bets : List Int
  net_payout : Int
  bankroll_after : Int
  steps : List AgentRoundStep
deriving Repr, DecidableEq, Inhabited

/-- One round of the session log (types/session). -/
structure Round where
  round_num : Nat
  dealer_hand : List String
  dealer_upcard : String
  agent_results : List AgentRoundResult
deriving Repr, DecidableEq, Inhabited

/-- The complete session log returned by the simulation provider (types/session). -/
structure SessionResult where
  starting_bankroll : Int
  rounds_played : Nat
  rounds : List Round
deriving Repr, DecidableEq, Inhabited

/-- A flat display event, the discriminated union `DisplayEvent` of
types/session: a kind tag, the round index, and for `agent_step` the agent
and step indices of the originating log record. -/
inductive DisplayEvent where
  | round_start (roundIndex : Nat)
  | agent_step (roundIndex : Nat) (agentIndex : Nat) (stepIndex : Nat)
  | dealer_reveal (roundIndex : Nat)
  | round_end (roundIndex : Nat)
deriving Repr, DecidableEq

/-- The `roundIndex` field common to all event kinds. -/
def DisplayEvent.roundIndex : DisplayEvent → Nat
  | .round_start r => r
  | .agent_step r _ _ => r
  | .dealer_reveal r => r
  | .round_end r => r

/-- The `kind` discriminator string of a display event. -/
def DisplayEvent.kind : DisplayEvent → String
  | .round_start _ => "round_start"
  | .agent_step _ _ _ => "agent_step"
  | .dealer_reveal _ => "dealer_reveal"
  | .round_end _ => "round_end"

/-- `buildEventList` of hooks/useReplay.ts: for each round push `round_start`,
then one `agent_step` per step of each agent result, then `dealer_reveal`
and `round_end`.  The `forEach` loops with index parameters are embedded as
`flatMap` over `List.enum`. -/
def buildEventList (session : SessionResult) : List DisplayEvent :=
  session.rounds.enum.flatMap fun roundPair =>
    DisplayEvent.round_start roundPair.1 ::
      (roundPair.2.agent_results.enum.flatMap fun agentPair =>
        agentPair.2.steps.enum.map fun stepPair =>
          DisplayEvent.agent_step roundPair.1 agentPair.1 stepPair.1)
      ++ [DisplayEvent.dealer_reveal roundPair.1, DisplayEvent.round_end roundPair.1]

/-- The event sequence as the specification words it: for each round index in
log order, one `round_start`; then, for each agent index in log order, one
`agent_step` per entry of that agent step list in step order; then one
`dealer_reveal`; then one `round_end`; each `agent_step` carrying the round,
agent and step indices of its originating log record.  Used only to compare
`buildEventList` against the specification text. -/
def eventListSpec (session : SessionResult) : List DisplayEvent :=
  (List.range session.rounds.length).flatMap fun roundIndex =>
    [DisplayEvent.round_start roundIndex]
    ++ ((List.range ((session.rounds.getD roundIndex default).agent_results.length)).flatMap
         fun agentIndex =>
           (List.range (((session.rounds.getD roundIndex default).agent_results.getD
               agentIndex default).steps.length)).map
             fun stepIndex => DisplayEvent.agent_step roundIndex agentIndex stepIndex)
    ++ [DisplayEvent.dealer_reveal roundIndex, DisplayEvent.round_end roundIndex]

/-- The `ReplaySpeed` literal union `400 | 800 | 1600 | 3200` of
hooks/useReplay.ts. -/
inductive ReplaySpeed where
  | ms400
  | ms800
  | ms1600
  | ms3200
deriving Repr, DecidableEq, BEq, Inhabited

/-- Milliseconds denoted by a `ReplaySpeed` value. -/
def ReplaySpeed.ms : ReplaySpeed → Nat
  | .ms400 => 400
  | .ms800 => 800
  | .ms1600 => 1600
  | .ms3200 => 3200

/-- The `SPEEDS` label table of components/game/ReplayControls.tsx. -/
def SPEEDS : List (String × ReplaySpeed) :=
  [("0.5×", ReplaySpeed.ms3200), ("1×", ReplaySpeed.ms1600),
   ("2×", ReplaySpeed.ms800), ("4×", ReplaySpeed.ms400)]

/-- The mutable state held by the `useReplay` hook: `eventIndex`, `isPlaying`
and `speed` (the three `useState` cells of hooks/useReplay.ts). -/
structure ReplayCtl where
  eventIndex : Int
  isPlaying : Bool
  speed : ReplaySpeed
deriving Repr, DecidableEq

/-- The initial hook state: `useState(0)`, `useState(true)`,
`useState<ReplaySpeed>(800)`. -/
def initialReplayCtl : ReplayCtl :=
  { eventIndex := 0, isPlaying := true, speed := ReplaySpeed.ms800 }

/-- `next`: `setEventIndex(i => Math.min(i + 1, totalEvents - 1))`. -/
def ReplayCtl.next (totalEvents : Int) (s : ReplayCtl) : ReplayCtl :=
  { s with eventIndex := min (s.eventIndex + 1) (totalEvents - 1) }

/-- `prev`: `setEventIndex(i => Math.max(i - 1, 0))`. -/
def ReplayCtl.prev (s : ReplayCtl) : ReplayCtl :=
  { s with eventIndex := max (s.eventIndex - 1) 0 }

/-- `play`: `if (eventIndex >= totalEvents - 1) setEventIndex(0); setIsPlaying(true)`. -/
def ReplayCtl.play (totalEvents : Int) (s : ReplayCtl) : ReplayCtl :=
  { s with
    eventIndex := if totalEvents - 1 ≤ s.eventIndex then 0 else s.eventIndex
    isPlaying := true }

/-- `pause`: `setIsPlaying(false)`. -/
def ReplayCtl.pause (s : ReplayCtl) : ReplayCtl :=
  { s with isPlaying := false }

/-- `jumpToEnd`: `setEventIndex(totalEvents - 1); setIsPlaying(false)`. -/
def ReplayCtl.jumpToEnd (totalEvents : Int) (s : ReplayCtl) : ReplayCtl :=
  { s with eventIndex := totalEvents - 1, isPlaying := false }

/-- `jumpTo`: `setEventIndex(Math.max(0, Math.min(idx, totalEvents - 1)))`. -/
def ReplayCtl.jumpTo (totalEvents : Int) (idx : Int) (s : ReplayCtl) : ReplayCtl :=
  { s with eventIndex := max 0 (min idx (totalEvents - 1)) }

/-- `setSpeed`: `setSpeedState(s)`. -/
def ReplayCtl.setSpeed (sp : ReplaySpeed) (s : ReplayCtl) : ReplayCtl :=
  { s with speed := sp }

/-- The derived field `atEnd = eventIndex >= totalEvents - 1`. -/
def ReplayCtl.atEnd (totalEvents : Int) (s : ReplayCtl) : Bool :=
  decide (totalEvents - 1 ≤ s.eventIndex)

/-- One invocation of a public control of the `useReplay` hook. -/
inductive ReplayOp where
  | next
  | prev
  | jumpTo (idx : Int)
  | jumpToEnd
  | play
  | pause
  | setSpeed (sp : ReplaySpeed)
deriving Repr, DecidableEq

/-- Apply one control invocation to the hook state. -/
def applyOp (totalEvents : Int) : ReplayOp → ReplayCtl → ReplayCtl
  | .next => ReplayCtl.next totalEvents
  | .prev => ReplayCtl.prev
  | .jumpTo idx => ReplayCtl.jumpTo totalEvents idx
  | .jumpToEnd => ReplayCtl.jumpToEnd totalEvents
  | .play => ReplayCtl.play totalEvents
  | .pause => ReplayCtl.pause
  | .setSpeed sp => ReplayCtl.setSpeed sp

/-- Run a sequence of control invocations from a given state. -/
def runOps (totalEvents : Int) (ops : List ReplayOp) (s : ReplayCtl) : ReplayCtl :=
  ops.foldl (fun st op => applyOp totalEvents op st) s

/-- `agentHands` of views/GameView.tsx: the per-agent visible hand derived
from the log and the current event.  `ar.player_hands[0]?.slice(0, 2) ?? []`
becomes `((ar.player_hands[0]?).map (fun h => h.take 2)).getD []`, and the
unguarded read `session.rounds[currentEvent.roundIndex]` becomes a `getD`
with the `Inhabited` default (the claims only evaluate it at in-range
indices). -/
def agentHands (session : SessionResult) (currentEvent : DisplayEvent) :
    List (List String) :=
  let round := (session.rounds[currentEvent.roundIndex]?).getD default
  round.agent_results.enum.map fun agentPair =>
    let ai := agentPair.1
    let ar := agentPair.2
    match currentEvent with
    | DisplayEvent.round_start _ =>
        ((ar.player_hands[0]?).map (fun h => h.take 2)).getD []
    | DisplayEvent.agent_step ri activeAi activeStepI =>
        if ai = activeAi then ((ar.steps[activeStepI]?).getD default).player_hand
        else
          let lastStep :=
            if 0 < ar.steps.length then
              ((ar.steps[ar.steps.length - 1]?).getD default).player_hand
            else ((ar.player_hands[0]?).map (fun h => h.take 2)).getD []
          let hasGone :=
            0 < (((((session.rounds[ri]?).getD default).agent_results[ai]?).getD
              default).steps).length
          if ¬ hasGone then ((ar.player_hands[0]?).map (fun h => h.take 2)).getD []
          else lastStep
    | _ => (ar.player_hands[ar.player_hands.length - 1]?).getD []

/-- `bankrolls` of views/GameView.tsx: the per-agent bankroll snapshot.  The
read `session.rounds[currentEvent.roundIndex - 1]` is `undefined` in the
source both at round index `0` (index `-1`) and past the end, embedded here
as the `none` branches. -/
def bankrolls (session : SessionResult) (currentEvent : DisplayEvent) : List Int :=
  let round := (session.rounds[currentEvent.roundIndex]?).getD default
  round.agent_results.map fun ar =>
    match currentEvent with
    | DisplayEvent.round_end _ => ar.bankroll_after
    | _ =>
        match (if currentEvent.roundIndex = 0 then none
               else session.rounds[currentEvent.roundIndex - 1]?) with
        | none => session.starting_bankroll
        | some prevRound =>
            ((prevRound.agent_results[ar.agent_index]?).map
              (fun prevAr => prevAr.bankroll_after)).getD session.starting_bankroll

/-- Test fixture: a step record carrying a given player hand. -/
def mkStep (hand : List String) : AgentRoundStep :=
  { step_num := 0, agent_name := "", player_hand := hand, dealer_upcard := "KH",
    legal_actions := ["hit", "stand"], action_taken := "stand", reason := "",
    hand_value := 0, is_split_hand := false, hand_index := 0 }

/-- Test fixture: agent 0 of round 1, one recorded step. -/
def agentA : AgentRoundResult :=
  { agent_index := 0, agent_name := "A", player_hands := [["5H", "9D", "KC"]],
    bets := [10], net_payout := -10, bankroll_after := 990,
    steps := [mkStep ["5H", "9D", "KC"]] }

/-- Test fixture: agent 1 of round 1, one recorded step, initial cards
`["2C", "3D"]`. -/
def agentB : AgentRoundResult :=
  { agent_index := 1, agent_name := "B", player_hands := [["2C", "3D", "7S"]],
    bets := [10], net_payout := 10, bankroll_after := 1010,
    steps := [mkStep ["2C", "3D", "7S"]] }

/-- Test fixture: agent 0 of round 2, zero recorded steps. -/
def agentA2 : AgentRoundResult :=
  { agent_index := 0, agent_name := "A", player_hands := [["4H", "4D"]],
    bets := [10], net_payout := -10, bankroll_after := 980, steps := [] }

/-- Test fixture: agent 1 of round 2, one recorded step. -/
def agentB2 : AgentRoundResult :=
  { agent_index := 1, agent_name := "B", player_hands := [["9C", "9D"]],
    bets := [10], net_payout := 10, bankroll_after := 1020,
    steps := [mkStep ["9C", "9D"]] }

/-- Test fixture: round 1 of the sample log. -/
def round1 : Round :=
  { round_num := 1, dealer_hand := ["KH", "8S"], dealer_upcard := "KH",
    agent_results := [agentA, agentB] }

/-- Test fixture: round 2 of the sample log. -/
def round2 : Round :=
  { round_num := 2, dealer_hand := ["QH", "9S"], dealer_upcard := "QH",
    agent_results := [agentA2, agentB2] }

/-- Test fixture: a two-round, two-agent session log with starting bankroll
1000. -/
def sampleSession : SessionResult :=
  { starting_bankroll := 1000, rounds_played := 2, rounds := [round1, round2] }

/-- Helper: mapping a function of the element only over `List.enum` is mapping
over the list itself. -/
theorem map_enum_snd {α β : Type _} (l : List α) (f : Nat × α → β) (g : α → β)
    (h : ∀ p : Nat × α, f p = g p.2) : l.enum.map f = l.map g := by
  have hf : f = g ∘ Prod.snd := funext fun p => h p
  rw [hf, ← List.map_map, List.enum_map_snd]

/-- Helper: mapping a function of the index only over `List.enum` is mapping
over `List.range`. -/
theorem map_enum_fst {α β : Type _} (l : List α) (g : Nat → β) :
    l.enum.map (fun p => g p.1) = (List.range l.length).map g := by
  have hf : (fun p : Nat × α => g p.1) = g ∘ Prod.fst := rfl
  rw [hf, ← List.map_map, List.enum_map_fst]

/-- Helper: a `flatMap` over `List.enumFrom` is a `flatMap` over index ranges
with `getD` lookups. -/
theorem enumFrom_flatMap_getD {α β : Type _} (d : α) (l : List α) :
    ∀ (n : Nat) (f : Nat → α → List β),
      (l.enumFrom n).flatMap (fun p => f p.1 p.2)
        = (List.range l.length).flatMap (fun i => f (n + i) (l.getD i d)) := by
  induction l with
  | nil => intro n f; simp
  | cons a t ih =>
      intro n f
      rw [List.enumFrom_cons, List.flatMap_cons, List.length_cons,
        List.range_succ_eq_map, List.flatMap_cons, List.flatMap_map]
      rw [ih (n + 1) f]
      congr 1
      apply List.flatMap_congr
      intro i hi
      have hadd : n + 1 + i = n + (i + 1) := by omega
      rw [hadd]
      simp [List.getD_cons_succ, Nat.succ_eq_add_one]

/-- Helper: the `n = 0` case of `enumFrom_flatMap_getD`. -/
theorem enum_flatMap_getD {α β : Type _} (d : α) (l : List α)
    (f : Nat → α → List β) :
    l.enum.flatMap (fun p => f p.1 p.2)
      = (List.range l.length).flatMap (fun i => f i (l.getD i d)) := by
  have h := enumFrom_flatMap_getD d l 0 f
  simpa using h

/-- C4: for every session log, the flat event sequence produced by
`buildEventList` has length the sum over rounds of one `round_start`, the
total step count of the round, and the two closing events; in particular a
round whose agents all have zero steps contributes exactly 3 events. -/
theorem buildEventList_length_eq (session : SessionResult) :
    (buildEventList session).length =
      (session.rounds.map (fun round =>
        1 + (round.agent_results.map (fun ar => ar.steps.length)).sum + 2)).sum := by
  rw [buildEventList, List.length_flatMap]
  have hpt : ∀ p : Nat × Round,
      (List.length ∘ fun roundPair : Nat × Round =>
        DisplayEvent.round_start roundPair.1 ::
          (roundPair.2.agent_results.enum.flatMap fun agentPair =>
            agentPair.2.steps.enum.map fun stepPair =>
              DisplayEvent.agent_step roundPair.1 agentPair.1 stepPair.1)
          ++ [DisplayEvent.dealer_reveal roundPair.1,
              DisplayEvent.round_end roundPair.1]) p
        = (fun round : Round =>
            1 + (round.agent_results.map (fun ar => ar.steps.length)).sum + 2) p.2 := by
    intro p
    simp only [Function.comp_apply, List.length_cons, List.length_append,
      List.length_flatMap, List.length_singleton, List.length_nil]
    rw [map_enum_snd _ _ (fun ar : AgentRoundResult => ar.steps.length)
      (by intro q; simp)]
    omega
  rw [map_enum_snd _ _ (fun round : Round =>
    1 + (round.agent_results.map (fun ar => ar.steps.length)).sum + 2) hpt]

/-- C5: `buildEventList` agrees with the order the specification prescribes:
per round in log order one `round_start`, then the `agent_step` events in
agent order and step order carrying the indices of their originating log
records, then `dealer_reveal` and `round_end`. -/
theorem buildEventList_eq_spec (session : SessionResult) :
    buildEventList session = eventListSpec session := by
  rw [buildEventList, eventListSpec]
  rw [enum_flatMap_getD (default : Round) session.rounds
    (fun roundIndex round =>
      DisplayEvent.round_start roundIndex ::
        (round.agent_results.enum.flatMap fun agentPair =>
          agentPair.2.steps.enum.map fun stepPair =>
            DisplayEvent.agent_step roundIndex agentPair.1 stepPair.1)
        ++ [DisplayEvent.dealer_reveal roundIndex,
            DisplayEvent.round_end roundIndex])]
  apply List.flatMap_congr
  intro roundIndex hri
  simp only [List.singleton_append, List.cons_append]
  congr 1
  congr 1
  rw [enum_flatMap_getD (default : AgentRoundResult)
    ((session.rounds.getD roundIndex default).agent_results)
    (fun agentIndex ar => ar.steps.enum.map fun stepPair =>
      DisplayEvent.agent_step roundIndex agentIndex stepPair.1)]
  apply List.flatMap_congr
  intro agentIndex hai
  rw [map_enum_fst]

/-- Helper: each single control invocation keeps the cursor inside
`[0, totalEvents - 1]` when the sequence is nonempty. -/
theorem applyOp_eventIndex_bounds (totalEvents : Int) (hN : 1 ≤ totalEvents)
    (op : ReplayOp) (s : ReplayCtl)
    (h0 : 0 ≤ s.eventIndex) (h1 : s.eventIndex ≤ totalEvents - 1) :
    0 ≤ (applyOp totalEvents op s).eventIndex ∧
      (applyOp totalEvents op s).eventIndex ≤ totalEvents - 1 := by
  cases op <;>
    simp only [applyOp, ReplayCtl.next, ReplayCtl.prev, ReplayCtl.jumpTo,
      ReplayCtl.jumpToEnd, ReplayCtl.play, ReplayCtl.pause, ReplayCtl.setSpeed] <;>
    (try split) <;> constructor <;> omega

/-- C6: from any non-boundary cursor position, `next` followed by `prev`
returns the cursor to its original value. -/
theorem next_then_prev_restores_cursor (totalEvents : Int) (s : ReplayCtl)
    (_hN : 1 ≤ totalEvents) (h0 : 0 < s.eventIndex)
    (h1 : s.eventIndex < totalEvents - 1) :
    ((s.next totalEvents).prev).eventIndex = s.eventIndex := by
  simp only [ReplayCtl.next, ReplayCtl.prev]
  omega

/-- Witness for C6 at `totalEvents = 4` from cursor position 1. -/
theorem next_then_prev_restores_cursor_witness :
    (((ReplayCtl.mk 1 true ReplaySpeed.ms800).next 4).prev).eventIndex = 1 :=
  next_then_prev_restores_cursor 4 (ReplayCtl.mk 1 true ReplaySpeed.ms800)
    (by decide) (by decide) (by decide)

/-- C7: after `jumpToEnd` the derived field `atEnd` is true and `isPlaying`
is false. -/
theorem jumpToEnd_at_end_paused (totalEvents : Int) (s : ReplayCtl)
    (_hN : 1 ≤ totalEvents) :
    (s.jumpToEnd totalEvents).atEnd totalEvents = true ∧
      (s.jumpToEnd totalEvents).isPlaying = false := by
  simp [ReplayCtl.jumpToEnd, ReplayCtl.atEnd]

/-- Witness for C7 at `totalEvents = 3` from the initial state. -/
theorem jumpToEnd_at_end_paused_witness :
    (initialReplayCtl.jumpToEnd 3).atEnd 3 = true ∧
      (initialReplayCtl.jumpToEnd 3).isPlaying = false :=
  jumpToEnd_at_end_paused 3 initialReplayCtl (by decide)

/-- C8: `play` at the last position resets the cursor to 0 and sets the play
flag; `play` at any other position leaves the cursor unchanged and sets the
play flag.  The hypothesis bounds the cursor to the controller-maintained
range `[0, totalEvents - 1]` of the data model. -/
theorem play_resets_only_at_end (totalEvents : Int) (s : ReplayCtl)
    (h1 : s.eventIndex ≤ totalEvents - 1) :
    (s.eventIndex = totalEvents - 1 →
      (s.play totalEvents).eventIndex = 0 ∧ (s.play totalEvents).isPlaying = true)
    ∧ (s.eventIndex ≠ totalEvents - 1 →
      (s.play totalEvents).eventIndex = s.eventIndex ∧
        (s.play totalEvents).isPlaying = true) := by
  refine ⟨fun h => ⟨?_, rfl⟩, fun h => ⟨?_, rfl⟩⟩ <;>
    (simp only [ReplayCtl.play]; split <;> omega)

/-- Witness for C8 at `totalEvents = 3` from cursor position 2 (the last). -/
theorem play_resets_only_at_end_witness :
    ((ReplayCtl.mk 2 false ReplaySpeed.ms800).play 3).eventIndex = 0 ∧
      ((ReplayCtl.mk 2 false ReplaySpeed.ms800).play 3).isPlaying = true :=
  (play_resets_only_at_end 3 (ReplayCtl.mk 2 false ReplaySpeed.ms800)
    (by decide)).1 (by decide)

/-- C9: from the initial state, every sequence of control invocations keeps
the cursor inside `[0, totalEvents - 1]` when the event sequence is
nonempty; every operation is a total function by construction, so none can
fail. -/
theorem cursor_always_in_bounds (totalEvents : Int) (hN : 1 ≤ totalEvents)
    (ops : List ReplayOp) :
    0 ≤ (runOps totalEvents ops initialReplayCtl).eventIndex ∧
      (runOps totalEvents ops initialReplayCtl).eventIndex ≤ totalEvents - 1 := by
  have key : ∀ (l : List ReplayOp) (s : ReplayCtl),
      0 ≤ s.eventIndex → s.eventIndex ≤ totalEvents - 1 →
      0 ≤ (runOps totalEvents l s).eventIndex ∧
        (runOps totalEvents l s).eventIndex ≤ totalEvents - 1 := by
    intro l
    induction l with
    | nil => intro s hs0 hs1; exact ⟨hs0, hs1⟩
    | cons op rest ih =>
        intro s hs0 hs1
        have hb := applyOp_eventIndex_bounds totalEvents hN op s hs0 hs1
        exact ih (applyOp totalEvents op s) hb.1 hb.2
  exact key ops initialReplayCtl (by simp [initialReplayCtl])
    (by simp only [initialReplayCtl]; omega)

/-- Witness for C9: a concrete operation sequence at `totalEvents = 3`. -/
theorem cursor_always_in_bounds_witness :
    0 ≤ (runOps 3 [ReplayOp.next, ReplayOp.jumpTo 99, ReplayOp.play,
        ReplayOp.jumpTo (-7), ReplayOp.prev, ReplayOp.jumpToEnd]
      initialReplayCtl).eventIndex ∧
      (runOps 3 [ReplayOp.next, ReplayOp.jumpTo 99, ReplayOp.play,
        ReplayOp.jumpTo (-7), ReplayOp.prev, ReplayOp.jumpToEnd]
      initialReplayCtl).eventIndex ≤ 3 - 1 :=
  cursor_always_in_bounds 3 (by decide)
    [ReplayOp.next, ReplayOp.jumpTo 99, ReplayOp.play,
     ReplayOp.jumpTo (-7), ReplayOp.prev, ReplayOp.jumpToEnd]

/-- C10 counterexample: the initial speed is the 800 ms setting, but per the
`SPEEDS` table of the replay controls the 1× setting is 1600 ms, not 800 ms;
800 ms is labelled 2×. -/
theorem initial_speed_not_labelled_one_x :
    initialReplayCtl.speed = ReplaySpeed.ms800
    ∧ (SPEEDS.find? (fun p => p.1 == "1×")).map Prod.snd = some ReplaySpeed.ms1600
    ∧ ReplaySpeed.ms1600 ≠ ReplaySpeed.ms800 := by
  decide

/-- C10 as amended: the initial state has cursor position 0, play flag true
(autoplay begins immediately) and the 800 ms speed setting, which the speed
control labels 2×. -/
theorem initial_replay_state :
    initialReplayCtl.eventIndex = 0 ∧ initialReplayCtl.isPlaying = true
    ∧ initialReplayCtl.speed.ms = 800
    ∧ (SPEEDS.find? (fun p => p.2 == ReplaySpeed.ms800)).map Prod.fst = some "2×" := by
  decide

/-- Helper: the visible hand `agentHands` computes for agent `ai` at an
`agent_step` event, written with the branches of the source. -/
theorem agentHands_agent_step_getElem (session : SessionResult) (r a s ai : Nat)
    (round : Round) (hr : session.rounds[r]? = some round)
    (ar : AgentRoundResult) (hai : round.agent_results[ai]? = some ar) :
    (agentHands session (DisplayEvent.agent_step r a s))[ai]? =
      some (if ai = a then ((ar.steps[s]?).getD default).player_hand
            else if 0 < ar.steps.length then
              ((ar.steps[ar.steps.length - 1]?).getD default).player_hand
            else ((ar.player_hands[0]?).map (fun h => h.take 2)).getD []) := by
  unfold agentHands
  simp only [DisplayEvent.roundIndex, hr, Option.getD_some]
  rw [List.getElem?_map, List.getElem?_enum, hai]
  simp only [Option.map_some', hai, Option.getD_some]
  by_cases hA : ai = a
  · simp [hA]
  · simp only [hA, ite_false, if_neg]
    by_cases hlen : 0 < ar.steps.length
    · simp [hlen]
    · simp [hlen]

/-- Helper: the inactive-agent branch equals a case split on the last
recorded step. -/
theorem last_step_hand_cases (ar : AgentRoundResult) (hand0 : List String)
    (h0 : ar.player_hands[0]? = some hand0) :
    (if 0 < ar.steps.length then
      ((ar.steps[ar.steps.length - 1]?).getD default).player_hand
     else ((ar.player_hands[0]?).map (fun h => h.take 2)).getD []) =
      (match ar.steps.getLast? with
       | some lastStp => lastStp.player_hand
       | none => hand0.take 2) := by
  cases hsteps : ar.steps with
  | nil => simp [h0]
  | cons x t =>
      have hlt : (x :: t).length - 1 < (x :: t).length := by simp
      rw [List.getLast?_eq_getElem?, List.getElem?_eq_getElem hlt]
      simp

/-- C1: at an `agent_step` event the active agent shows exactly the hand of
its step at the event step index; every other agent with at least one
recorded step shows the hand of its last recorded step, and an agent with
zero recorded steps shows the first two entries of its first player hand. -/
theorem agent_step_visible_hands (session : SessionResult) (r a s ai : Nat)
    (round : Round) (hr : session.rounds[r]? = some round)
    (arA : AgentRoundResult) (ha : round.agent_results[a]? = some arA)
    (stp : AgentRoundStep) (hs : arA.steps[s]? = some stp)
    (ar : AgentRoundResult) (hai : round.agent_results[ai]? = some ar)
    (hand0 : List String) (h0 : ar.player_hands[0]? = some hand0) :
    (agentHands session (DisplayEvent.agent_step r a s))[ai]? =
      some (if ai = a then stp.player_hand
            else match ar.steps.getLast? with
                 | some lastStp => lastStp.player_hand
                 | none => hand0.take 2) := by
  rw [agentHands_agent_step_getElem session r a s ai round hr ar hai]
  congr 1
  by_cases hA : ai = a
  · subst hA
    rw [hai] at ha
    obtain rfl : ar = arA := Option.some.inj ha
    simp [hs]
  · rw [if_neg hA, if_neg hA]
    exact last_step_hand_cases ar hand0 h0

/-- Witness for C1: at `agent_step 0 0 0` of the sample log, the active
agent 0 shows the hand of its step 0. -/
theorem agent_step_visible_hands_witness :
    (agentHands sampleSession (DisplayEvent.agent_step 0 0 0))[0]? =
      some ["5H", "9D", "KC"] := by
  have h := agent_step_visible_hands sampleSession 0 0 0 0 round1 rfl agentA rfl
    (mkStep ["5H", "9D", "KC"]) rfl agentA rfl ["5H", "9D", "KC"] rfl
  simpa [mkStep] using h

/-- C2 counterexample: in the sample log, at the `agent_step` event of agent
0 (so agent 1 has not yet been reached in the flat sequence), agent 1 is
shown at the hand of its last recorded step, a three-card hand, and not at
its initial two-card hand `["2C", "3D"]` as the claim states. -/
theorem future_agent_not_initial_hand :
    DisplayEvent.agent_step 0 0 0 ∈ buildEventList sampleSession
    ∧ (agentHands sampleSession (DisplayEvent.agent_step 0 0 0))[1]? =
        some ["2C", "3D", "7S"]
    ∧ ¬ (agentHands sampleSession (DisplayEvent.agent_step 0 0 0))[1]? =
        some ["2C", "3D"] := by
  decide

/-- C2 as amended: an agent whose index is greater than the active agent
index is shown at its last recorded step hand when it has at least one
recorded step in the round, and at its initial two-card hand only when it
has zero recorded steps. -/
theorem future_agent_visible_hand (session : SessionResult) (r a s ai : Nat)
    (hlt : a < ai)
    (round : Round) (hr : session.rounds[r]? = some round)
    (ar : AgentRoundResult) (hai : round.agent_results[ai]? = some ar)
    (hand0 : List String) (h0 : ar.player_hands[0]? = some hand0) :
    (agentHands session (DisplayEvent.agent_step r a s))[ai]? =
      some (match ar.steps.getLast? with
            | some lastStp => lastStp.player_hand
            | none => hand0.take 2) := by
  rw [agentHands_agent_step_getElem session r a s ai round hr ar hai]
  have hA : ¬ ai = a := by omega
  rw [if_neg hA, last_step_hand_cases ar hand0 h0]

/-- Witness for the amended C2: agent 1, not yet reached at
`agent_step 0 0 0`, shows its last recorded step hand. -/
theorem future_agent_visible_hand_witness :
    (agentHands sampleSession (DisplayEvent.agent_step 0 0 0))[1]? =
      some ["2C", "3D", "7S"] := by
  have h := future_agent_visible_hand sampleSession 0 0 0 1 (by decide) round1 rfl
    agentB rfl ["2C", "3D", "7S"] rfl
  simpa [mkStep, agentB] using h

/-- Helper: `bankrolls` at a `round_end` event returns the bankroll after
this round. -/
theorem bankrolls_getElem_end (session : SessionResult) (ri : Nat)
    (round : Round) (hr : session.rounds[ri]? = some round)
    (ai : Nat) (ar : AgentRoundResult) (hai : round.agent_results[ai]? = some ar) :
    (bankrolls session (DisplayEvent.round_end ri))[ai]? = some ar.bankroll_after := by
  unfold bankrolls
  simp only [DisplayEvent.roundIndex, hr, Option.getD_some]
  rw [List.getElem?_map, hai]
  simp only [Option.map_some']

/-- Helper: `bankrolls` at any event that is not `round_end`, written with
the previous-round lookup of the source. -/
theorem bankrolls_getElem_non_end (session : SessionResult) (e : DisplayEvent)
    (hk : e.kind ≠ "round_end")
    (round : Round) (hr : session.rounds[e.roundIndex]? = some round)
    (ai : Nat) (ar : AgentRoundResult) (hai : round.agent_results[ai]? = some ar) :
    (bankrolls session e)[ai]? =
      some (match (if e.roundIndex = 0 then none
                   else session.rounds[e.roundIndex - 1]?) with
            | none => session.starting_bankroll
            | some prevRound =>
                ((prevRound.agent_results[ar.agent_index]?).map
                  (fun prevAr => prevAr.bankroll_after)).getD session.starting_bankroll) := by
  cases e
  case round_end ri => exact absurd rfl hk
  all_goals
    unfold bankrolls
  all_goals
    simp only [DisplayEvent.roundIndex] at hr ⊢
  all_goals
    simp only [hr, Option.getD_some]
  all_goals
    rw [List.getElem?_map, hai]
  all_goals
    simp only [Option.map_some']

/-- C3: an agent bankroll snapshot is the bankroll after this round at a
`round_end` event; at every other event kind it is the previous round
bankroll after for that agent when a previous round exists, and the
starting bankroll otherwise.  The hypothesis `hidx` is the log invariant
that agent ordering matches `agent_index`. -/
theorem bankroll_snapshot_rule (session : SessionResult) (e : DisplayEvent)
    (round : Round) (hr : session.rounds[e.roundIndex]? = some round)
    (ai : Nat) (ar : AgentRoundResult) (hai : round.agent_results[ai]? = some ar)
    (hidx : ar.agent_index = ai) :
    (e.kind = "round_end" → (bankrolls session e)[ai]? = some ar.bankroll_after)
    ∧ (e.kind ≠ "round_end" → e.roundIndex = 0 →
        (bankrolls session e)[ai]? = some session.starting_bankroll)
    ∧ (e.kind ≠ "round_end" → 0 < e.roundIndex →
        ∀ prevRound, session.rounds[e.roundIndex - 1]? = some prevRound →
        ∀ prevAr, prevRound.agent_results[ai]? = some prevAr →
        (bankrolls session e)[ai]? = some prevAr.bankroll_after) := by
  refine ⟨?_, ?_, ?_⟩
  · intro hk
    cases e
    case round_end ri => exact bankrolls_getElem_end session ri round hr ai ar hai
    all_goals simp [DisplayEvent.kind] at hk
  · intro hk h0
    rw [bankrolls_getElem_non_end session e hk round hr ai ar hai]
    simp [h0]
  · intro hk hpos prevRound hprev prevAr hpAi
    rw [bankrolls_getElem_non_end session e hk round hr ai ar hai]
    have hne : ¬ e.roundIndex = 0 := by omega
    simp only [hne, ite_false, if_neg, hprev, hidx, hpAi, Option.map_some',
      Option.getD_some]

/-- Witness for C3 on the sample log: at round 0 `round_end` agent 0 reads
its own bankroll after (990); during round 1 `agent_step` events it still
reads 990 (the previous round); at round 0 `round_start` it reads the
starting bankroll 1000. -/
theorem bankroll_snapshot_rule_witness :
    (bankrolls sampleSession (DisplayEvent.round_end 0))[0]? = some 990
    ∧ (bankrolls sampleSession (DisplayEvent.agent_step 1 1 0))[0]? = some 990
    ∧ (bankrolls sampleSession (DisplayEvent.round_start 0))[0]? = some 1000 := by
  refine ⟨?_, ?_, ?_⟩
  · exact (bankroll_snapshot_rule sampleSession (DisplayEvent.round_end 0) round1 rfl
      0 agentA rfl rfl).1 rfl
  · exact (bankroll_snapshot_rule sampleSession (DisplayEvent.agent_step 1 1 0) round2
      rfl 0 agentA2 rfl rfl).2.2 (by decide) (by decide) round1 rfl agentA rfl
  · exact (bankroll_snapshot_rule sampleSession (DisplayEvent.round_start 0) round1 rfl
      0 agentA rfl rfl).2.1 (by decide) rfl
